import Mathlib

/-!
Verification development for the SEAM-VIZ core engine.

The TypeScript core (`src/core`) is shallowly embedded over the reals:
JavaScript numbers become `ℝ`, tuples `[number, number, number]` become a
`Vec3` structure, tagged unions become inductive types, and the one place
that throws (`pullbackAction`) returns `Except String _`.  All definitions
follow the source line by line; theorems about them come afterwards.
-/

namespace SeamViz

/-- A 3D vector, embedding the TS tuple type `Vec3 = [number, number, number]`.
`x`, `y`, `z` stand for indices 0, 1, 2. -/
@[ext]
structure Vec3 where
  x : ℝ
  y : ℝ
  z : ℝ

instance : Inhabited Vec3 := ⟨⟨0, 0, 0⟩⟩

namespace Vec3

/-- `Vec3.add` from `types.ts`. -/
def add (a b : Vec3) : Vec3 := ⟨a.x + b.x, a.y + b.y, a.z + b.z⟩

/-- `Vec3.scale` from `types.ts`. -/
def scale (a : Vec3) (s : ℝ) : Vec3 := ⟨a.x * s, a.y * s, a.z * s⟩

/-- `Vec3.dot` from `types.ts`. -/
def dot (a b : Vec3) : ℝ := a.x * b.x + a.y * b.y + a.z * b.z

/-- `Vec3.norm2` from `types.ts`. -/
def norm2 (a : Vec3) : ℝ := dot a a

/-- `Vec3.norm` from `types.ts`. -/
noncomputable def norm (a : Vec3) : ℝ := Real.sqrt (norm2 a)

/-- `Vec3.normalize` from `types.ts`: falls back to `(0,0,1)` when the norm
is below `eps` (the source default is `1e-12`; the threshold is passed
explicitly here). -/
noncomputable def normalize (a : Vec3) (eps : ℝ) : Vec3 :=
  if norm a < eps then ⟨0, 0, 1⟩ else scale a (1 / norm a)

/-- `Vec3.neg` from `types.ts`. -/
def neg (a : Vec3) : Vec3 := ⟨-a.x, -a.y, -a.z⟩

/-- `Vec3.clamp` from `types.ts`: `Math.max(lo, Math.min(hi, x))`. -/
def clamp (x lo hi : ℝ) : ℝ := max lo (min hi x)

/-- `Vec3.angle` from `types.ts`: `acos(clamp(dot a b, -1, 1))`. -/
noncomputable def angle (a b : Vec3) : ℝ := Real.arccos (clamp (dot a b) (-1) 1)

/-- `Vec3.approxEq` from `types.ts`: independent per-component comparison
(the source default threshold is `1e-6`; passed explicitly here). -/
noncomputable def approxEq (a b : Vec3) (eps : ℝ) : Bool :=
  decide (|a.x - b.x| < eps ∧ |a.y - b.y| < eps ∧ |a.z - b.z| < eps)

end Vec3

/-- `QuotientClass` from `types.ts`: the pair of fields kept by the source.
The TS 2-tuple `representatives: [Vec3, Vec3]` is a product. -/
structure QuotientClass where
  canonical : Vec3
  representatives : Vec3 × Vec3

/-- `canonicalSign` from `quotient.ts`: lexicographic sign rule, returning
`1` or `-1` (the TS literal type `1 | -1` embedded in `ℤ`). -/
noncomputable def canonicalSign (u : Vec3) (eps : ℝ) : ℤ :=
  if |u.x| > eps then (if u.x ≥ 0 then 1 else -1)
  else if |u.y| > eps then (if u.y ≥ 0 then 1 else -1)
  else if |u.z| > eps then (if u.z ≥ 0 then 1 else -1)
  else 1

/-- `antipode` from `quotient.ts`. -/
def antipode (u : Vec3) : Vec3 := Vec3.neg u

/-- `classOf` from `quotient.ts`: normalize, choose the canonical sign, and
store both representatives `[canonical, -canonical]`. -/
noncomputable def classOf (v : Vec3) : QuotientClass :=
  let u0 := Vec3.normalize v (1e-12)
  let canonical := if canonicalSign u0 (1e-12) = 1 then u0 else antipode u0
  { canonical := canonical, representatives := (canonical, antipode canonical) }

/-- `classEquals` from `quotient.ts`: either representative of `a` matches
either representative of `b` (the source only tests `u1` against `u2` and
`negU2`). -/
noncomputable def classEquals (a b : QuotientClass) (eps : ℝ) : Bool :=
  Vec3.approxEq a.representatives.1 b.representatives.1 eps ||
    Vec3.approxEq a.representatives.1 b.representatives.2 eps

/-- The `minAngle` computation shared by `pointInQuotientCone` and
`quotientConeWeight` in `quotient.ts`:
`min(angle(point, u), angle(point, negU))`. -/
noncomputable def minAngleTo (point : Vec3) (center : QuotientClass) : ℝ :=
  min (Vec3.angle point center.representatives.1)
    (Vec3.angle point center.representatives.2)

/-- `pointInQuotientCone` from `quotient.ts`: `minAngle <= aperture`. -/
noncomputable def pointInQuotientCone (point : Vec3) (center : QuotientClass)
    (aperture : ℝ) : Bool :=
  decide (minAngleTo point center ≤ aperture)

/-- `quotientConeWeight` from `quotient.ts`: `0` once `minAngle >= aperture`,
otherwise the linear falloff `1 - minAngle/aperture`. -/
noncomputable def quotientConeWeight (point : Vec3) (center : QuotientClass)
    (aperture : ℝ) : ℝ :=
  if minAngleTo point center ≥ aperture then 0
  else 1 - minAngleTo point center / aperture

/-- The `colors` record of `SelectionState` in `selection.ts`. -/
structure Colors where
  u : String
  negU : String

/-- `SelectionState` from `selection.ts`. -/
structure SelectionState where
  selectedClass : QuotientClass
  aperture : ℝ
  colors : Colors

/-- `SelectionIntent` from `types.ts`.  The `Unknown` constructor stands for
any runtime value whose `type` tag is none of the five recognized tags
(reachable in TS through untyped casts); it models the `default` branch of
the dispatch in `processIntent`. -/
inductive SelectionIntent where
  | ClickQuotient (point : Vec3)
  | ClickSource (point : Vec3)
  | DragOrbit (delta : ℝ × ℝ)
  | SetAperture (value : ℝ)
  | Reset
  | Unknown (tag : String)

/-- `createDefaultSelection` from `selection.ts`. -/
noncomputable def createDefaultSelection : SelectionState :=
  { selectedClass := classOf ⟨0, 1, 0⟩
    aperture := 0.4
    colors := { u := "#00e5bc", negU := "#6366f1" } }

/-- `processIntent` from `selection.ts`.  The `Unknown` case is the `default`
branch, which logs and returns the state unchanged. -/
noncomputable def processIntent (state : SelectionState)
    (intent : SelectionIntent) : SelectionState :=
  match intent with
  | .ClickQuotient point => { state with selectedClass := classOf point }
  | .ClickSource point => { state with selectedClass := classOf point }
  | .SetAperture value => { state with aperture := value }
  | .Reset => createDefaultSelection
  | .DragOrbit _ => state
  | .Unknown _ => state

/-- One spotlight entry of a `RenderDirective` (`types.ts`). -/
structure Spotlight where
  direction : Vec3
  color : String
  aperture : ℝ

/-- One quotient-marker entry of a `RenderDirective` (`types.ts`); the TS
field `class` is spelled `cls` here because `class` is a Lean keyword. -/
structure QuotientMarker where
  cls : QuotientClass
  aperture : ℝ
  colors : String × String

/-- `RenderDirective` from `types.ts` (the optional `highlights` overlay is
never produced by `generateRenderDirectives` and is omitted). -/
structure RenderDirective where
  spotlights : List Spotlight
  quotientMarkers : List QuotientMarker

/-- `generateRenderDirectives` from `selection.ts`: two spotlights (one per
representative) and one quotient marker. -/
noncomputable def generateRenderDirectives (state : SelectionState) :
    RenderDirective :=
  { spotlights :=
      [ { direction := state.selectedClass.representatives.1
          color := state.colors.u
          aperture := state.aperture }
      , { direction := state.selectedClass.representatives.2
          color := state.colors.negU
          aperture := state.aperture } ]
    quotientMarkers :=
      [ { cls := state.selectedClass
          aperture := state.aperture
          colors := (state.colors.u, state.colors.negU) } ] }

/-- `validatePairing` from `selection.ts`: `approxEq(negU, neg u, 1e-6)`
(the source logs on violation; the returned boolean is modelled). -/
noncomputable def validatePairing (state : SelectionState) : Bool :=
  Vec3.approxEq state.selectedClass.representatives.2
    (Vec3.neg state.selectedClass.representatives.1) (1e-6)

/-- The state reached from `createDefaultSelection` by a sequence of
`processIntent` calls (functional-update pattern of the source). -/
noncomputable def processIntents (intents : List SelectionIntent) :
    SelectionState :=
  intents.foldl processIntent createDefaultSelection

/-- The `type` tag of a `SourceEffect` (`types.ts`). -/
inductive EffectType where
  | spotlight
  | paint
  | stamp
  | trace
deriving DecidableEq

/-- A value stored in the `parameters` record of a `SourceEffect`
(`Record<string, unknown>` in TS; only these shapes occur in the source). -/
inductive ParamValue where
  | num (value : ℝ)
  | str (value : String)
  | vecList (value : List Vec3)

/-- `SourceEffect` from `types.ts`. -/
structure SourceEffect where
  type : EffectType
  position : Vec3
  parameters : List (String × ParamValue)

/-- `QuotientAction` from `types.ts`; like `SelectionIntent.Unknown`, the
`Unknown` constructor models a value with an unrecognized `type` tag (the
source reaches that case via an `as any` cast in the thrown message). -/
inductive QuotientAction where
  | Select (cls : QuotientClass) (aperture : ℝ)
  | Paint (cls : QuotientClass) (radius : ℝ) (color : String)
  | Stamp (cls : QuotientClass) (pattern : String)
  | Trace (path : List Vec3)
  | Unknown (tag : String)

/-- `PullbackResult` from `types.ts`. -/
structure PullbackResult where
  action : QuotientAction
  effectOnU : SourceEffect
  effectOnNegU : SourceEffect

/-- `pullbackSelect` from `pullback.ts`. -/
def pullbackSelect (cls : QuotientClass) (aperture : ℝ) : PullbackResult :=
  { action := .Select cls aperture
    effectOnU :=
      { type := .spotlight
        position := cls.representatives.1
        parameters :=
          [ ("aperture", .num aperture), ("color", .str "#00e5bc")
          , ("intensity", .num 1) ] }
    effectOnNegU :=
      { type := .spotlight
        position := cls.representatives.2
        parameters :=
          [ ("aperture", .num aperture), ("color", .str "#6366f1")
          , ("intensity", .num 1) ] } }

/-- `pullbackPaint` from `pullback.ts`. -/
def pullbackPaint (cls : QuotientClass) (radius : ℝ) (color : String) :
    PullbackResult :=
  { action := .Paint cls radius color
    effectOnU :=
      { type := .paint
        position := cls.representatives.1
        parameters :=
          [ ("radius", .num radius), ("color", .str color)
          , ("blendMode", .str "normal") ] }
    effectOnNegU :=
      { type := .paint
        position := cls.representatives.2
        parameters :=
          [ ("radius", .num radius), ("color", .str color)
          , ("blendMode", .str "normal") ] } }

/-- `pullbackStamp` from `pullback.ts` (the `-u` copy gets rotation `π`). -/
noncomputable def pullbackStamp (cls : QuotientClass) (pattern : String) :
    PullbackResult :=
  { action := .Stamp cls pattern
    effectOnU :=
      { type := .stamp
        position := cls.representatives.1
        parameters :=
          [ ("pattern", .str pattern), ("rotation", .num 0)
          , ("scale", .num 1) ] }
    effectOnNegU :=
      { type := .stamp
        position := cls.representatives.2
        parameters :=
          [ ("pattern", .str pattern), ("rotation", .num Real.pi)
          , ("scale", .num 1) ] } }

/-- `pullbackTrace` from `pullback.ts`.  The source reads `path[0]`, which is
`undefined` in JS for an empty path; `List.headI` supplies the `Inhabited`
default there, and every theorem about traces assumes a non-empty path. -/
def pullbackTrace (path : List Vec3) : PullbackResult :=
  { action := .Trace path
    effectOnU :=
      { type := .trace
        position := path.headI
        parameters :=
          [ ("path", .vecList path), ("lineWidth", .num 2)
          , ("color", .str "#00e5bc") ] }
    effectOnNegU :=
      { type := .trace
        position := (path.map Vec3.neg).headI
        parameters :=
          [ ("path", .vecList (path.map Vec3.neg)), ("lineWidth", .num 2)
          , ("color", .str "#6366f1") ] } }

/-- `pullbackAction` from `pullback.ts`: dispatch on the action tag; the
`default` branch throws `Unknown action type: ...`, modelled as
`Except.error`. -/
noncomputable def pullbackAction (action : QuotientAction) :
    Except String PullbackResult :=
  match action with
  | .Select cls aperture => .ok (pullbackSelect cls aperture)
  | .Paint cls radius color => .ok (pullbackPaint cls radius color)
  | .Stamp cls pattern => .ok (pullbackStamp cls pattern)
  | .Trace path => .ok (pullbackTrace path)
  | .Unknown tag => .error ("Unknown action type: " ++ tag)

/-- `validateSymmetry` from `pullback.ts`: matching effect types and
antipodal positions within `1e-6` (the source logs on each failure; the
returned boolean is modelled). -/
noncomputable def validateSymmetry (result : PullbackResult) : Bool :=
  if result.effectOnU.type ≠ result.effectOnNegU.type then false
  else if !Vec3.approxEq result.effectOnNegU.position
      (Vec3.neg result.effectOnU.position) (1e-6) then false
  else true

/-- A 3×3 row-major matrix (`Mat3` in `transforms.ts`), fields `m i j`
standing for the flat index `3*i + j`. -/
structure Mat3 where
  m00 : ℝ
  m01 : ℝ
  m02 : ℝ
  m10 : ℝ
  m11 : ℝ
  m12 : ℝ
  m20 : ℝ
  m21 : ℝ
  m22 : ℝ

/-- A quaternion `[x, y, z, w]` (`Quaternion` in `transforms.ts`). -/
structure Quat where
  x : ℝ
  y : ℝ
  z : ℝ
  w : ℝ

/-- `rotationAxisAngle` from `transforms.ts` (the Rodrigues rotation
formula; the axis is normalized internally). -/
noncomputable def rotationAxisAngle (axis : Vec3) (angle : ℝ) : Mat3 :=
  let u := Vec3.normalize axis (1e-12)
  let c := Real.cos angle
  let s := Real.sin angle
  let t := 1 - c
  { m00 := t * u.x * u.x + c
    m01 := t * u.x * u.y - s * u.z
    m02 := t * u.x * u.z + s * u.y
    m10 := t * u.x * u.y + s * u.z
    m11 := t * u.y * u.y + c
    m12 := t * u.y * u.z - s * u.x
    m20 := t * u.x * u.z - s * u.y
    m21 := t * u.y * u.z + s * u.x
    m22 := t * u.z * u.z + c }

/-- `quaternionFromAxisAngle` from `transforms.ts`. -/
noncomputable def quaternionFromAxisAngle (axis : Vec3) (angle : ℝ) : Quat :=
  let s := Real.sin (angle / 2)
  let u := Vec3.normalize axis (1e-12)
  { x := u.x * s, y := u.y * s, z := u.z * s, w := Real.cos (angle / 2) }

/-- `quaternionToMatrix` from `transforms.ts`. -/
noncomputable def quaternionToMatrix (q : Quat) : Mat3 :=
  { m00 := 1 - 2 * (q.y * q.y + q.z * q.z)
    m01 := 2 * (q.x * q.y - q.z * q.w)
    m02 := 2 * (q.x * q.z + q.y * q.w)
    m10 := 2 * (q.x * q.y + q.z * q.w)
    m11 := 1 - 2 * (q.x * q.x + q.z * q.z)
    m12 := 2 * (q.y * q.z - q.x * q.w)
    m20 := 2 * (q.x * q.z - q.y * q.w)
    m21 := 2 * (q.y * q.z + q.x * q.w)
    m22 := 1 - 2 * (q.x * q.x + q.y * q.y) }

/-- `Ray` from `types.ts`. -/
structure Ray where
  origin : Vec3
  direction : Vec3

/-- The quadratic coefficient `a = dot(direction, direction)` computed in
`raySphereIntersection` (`transforms.ts`). -/
def sphereQuadA (ray : Ray) : ℝ := Vec3.dot ray.direction ray.direction

/-- The quadratic coefficient `b = 2 * dot(origin, direction)`. -/
def sphereQuadB (ray : Ray) : ℝ := 2 * Vec3.dot ray.origin ray.direction

/-- The quadratic coefficient `c = dot(origin, origin) - 1`. -/
def sphereQuadC (ray : Ray) : ℝ := Vec3.dot ray.origin ray.origin - 1

/-- The discriminant `b*b - 4*a*c` computed in `raySphereIntersection`. -/
def sphereDisc (ray : Ray) : ℝ :=
  sphereQuadB ray * sphereQuadB ray - 4 * sphereQuadA ray * sphereQuadC ray

/-- The quadratic `a·t² + b·t + c` whose roots are the ray parameters of the
sphere intersections. -/
def sphereQuad (ray : Ray) (t : ℝ) : ℝ :=
  sphereQuadA ray * t ^ 2 + sphereQuadB ray * t + sphereQuadC ray

/-- The root `t1 = (-b - sqrt(disc)) / (2a)` from `raySphereIntersection`. -/
noncomputable def sphereT1 (ray : Ray) : ℝ :=
  (-sphereQuadB ray - Real.sqrt (sphereDisc ray)) / (2 * sphereQuadA ray)

/-- The root `t2 = (-b + sqrt(disc)) / (2a)` from `raySphereIntersection`. -/
noncomputable def sphereT2 (ray : Ray) : ℝ :=
  (-sphereQuadB ray + Real.sqrt (sphereDisc ray)) / (2 * sphereQuadA ray)

/-- `raySphereIntersection` from `transforms.ts`: `null` on negative
discriminant, pick `t = t1 > 0 ? t1 : t2`, `null` if `t < 0`, else the point
`origin + t·direction` normalized. -/
noncomputable def raySphereIntersection (ray : Ray) : Option Vec3 :=
  if sphereDisc ray < 0 then none
  else
    let t := if sphereT1 ray > 0 then sphereT1 ray else sphereT2 ray
    if t < 0 then none
    else some (Vec3.normalize (Vec3.add ray.origin (Vec3.scale ray.direction t))
      (1e-12))

/-! ### Basic vector lemmas -/

lemma Vec3.neg_neg (a : Vec3) : Vec3.neg (Vec3.neg a) = a := by
  simp [Vec3.neg]

lemma Vec3.approxEq_self (a : Vec3) {eps : ℝ} (heps : 0 < eps) :
    Vec3.approxEq a a eps = true := by
  simp only [Vec3.approxEq, sub_self, abs_zero, decide_eq_true_eq]
  exact ⟨heps, heps, heps⟩

lemma Vec3.norm2_nonneg (a : Vec3) : 0 ≤ Vec3.norm2 a := by
  have hx := mul_self_nonneg a.x
  have hy := mul_self_nonneg a.y
  have hz := mul_self_nonneg a.z
  simp only [Vec3.norm2, Vec3.dot]
  linarith

lemma Vec3.norm2_neg (a : Vec3) : Vec3.norm2 (Vec3.neg a) = Vec3.norm2 a := by
  simp only [Vec3.norm2, Vec3.dot, Vec3.neg]
  ring

lemma Vec3.norm_neg (a : Vec3) : Vec3.norm (Vec3.neg a) = Vec3.norm a := by
  rw [Vec3.norm, Vec3.norm, Vec3.norm2_neg]

lemma Vec3.norm2_normalize (v : Vec3) {eps : ℝ} (heps : 0 < eps) :
    Vec3.norm2 (Vec3.normalize v eps) = 1 := by
  rw [Vec3.normalize]
  split
  · norm_num [Vec3.norm2, Vec3.dot]
  · rename_i h
    have hnpos : 0 < Vec3.norm v := lt_of_lt_of_le heps (not_lt.mp h)
    have hn2 : Vec3.norm v * Vec3.norm v = Vec3.norm2 v :=
      Real.mul_self_sqrt (Vec3.norm2_nonneg v)
    have hne : Vec3.norm v ≠ 0 := ne_of_gt hnpos
    simp only [Vec3.norm2, Vec3.dot, Vec3.scale] at hn2 ⊢
    field_simp
    linear_combination -hn2

/-! ### Lemmas about `classOf` -/

lemma classOf_canonical (v : Vec3) :
    (classOf v).canonical =
      if canonicalSign (Vec3.normalize v (1e-12)) (1e-12) = 1
      then Vec3.normalize v (1e-12) else antipode (Vec3.normalize v (1e-12)) :=
  rfl

lemma classOf_representatives (v : Vec3) :
    (classOf v).representatives =
      ((classOf v).canonical, antipode (classOf v).canonical) :=
  rfl

lemma norm2_classOf_canonical (v : Vec3) :
    Vec3.norm2 (classOf v).canonical = 1 := by
  have h := Vec3.norm2_normalize v (show (0:ℝ) < 1e-12 by norm_num)
  rw [classOf_canonical]
  split
  · exact h
  · rw [antipode, Vec3.norm2_neg]
    exact h

/-- The pairing invariant carried by a `QuotientClass`:
`representatives[0] == canonical` and `representatives[1] == -representatives[0]`. -/
def pairedClass (c : QuotientClass) : Prop :=
  c.representatives.1 = c.canonical ∧
    c.representatives.2 = Vec3.neg c.representatives.1

lemma classOf_pairedClass (v : Vec3) : pairedClass (classOf v) :=
  ⟨rfl, rfl⟩

lemma validatePairing_of_paired (s : SelectionState)
    (h : pairedClass s.selectedClass) : validatePairing s = true := by
  rw [validatePairing, h.2]
  exact Vec3.approxEq_self _ (by norm_num)

lemma processIntent_preserves_paired (s : SelectionState)
    (i : SelectionIntent) (h : pairedClass s.selectedClass) :
    pairedClass (processIntent s i).selectedClass := by
  cases i with
  | ClickQuotient p => exact classOf_pairedClass p
  | ClickSource p => exact classOf_pairedClass p
  | SetAperture a => exact h
  | Reset => exact classOf_pairedClass _
  | DragOrbit d => exact h
  | Unknown t => exact h

lemma foldl_processIntent_paired (intents : List SelectionIntent)
    (s : SelectionState) (h : pairedClass s.selectedClass) :
    pairedClass ((intents.foldl processIntent s).selectedClass) := by
  induction intents generalizing s with
  | nil => exact h
  | cons i rest ih =>
      exact ih (processIntent s i) (processIntent_preserves_paired s i h)

/-- C1.  Every `QuotientClass` produced by `classOf` satisfies
`representatives[0] == canonical` and `representatives[1] == -representatives[0]`,
and `validatePairing` returns `true` on every state reachable from
`createDefaultSelection` by any sequence of `processIntent` calls. -/
theorem classOf_pairing_invariant_reachable :
    (∀ v : Vec3,
      (classOf v).representatives.1 = (classOf v).canonical ∧
      (classOf v).representatives.2 = Vec3.neg ((classOf v).representatives.1)) ∧
    (∀ intents : List SelectionIntent,
      validatePairing (processIntents intents) = true) := by
  constructor
  · intro v
    exact classOf_pairedClass v
  · intro intents
    exact validatePairing_of_paired _
      (foldl_processIntent_paired intents createDefaultSelection
        (classOf_pairedClass _))

/-! ### The lexicographic sign rule (C2) -/

/-- The canonical-sign property of the spec: inspecting coordinates in order
x, y, z, the first one whose absolute value exceeds `1e-12` is non-negative. -/
def firstCoordSignOk (c : Vec3) : Prop :=
  (|c.x| > 1e-12 → 0 ≤ c.x) ∧
  (|c.x| ≤ 1e-12 → |c.y| > 1e-12 → 0 ≤ c.y) ∧
  (|c.x| ≤ 1e-12 → |c.y| ≤ 1e-12 → |c.z| > 1e-12 → 0 ≤ c.z)

lemma canonicalRep_firstCoordSignOk (u : Vec3) :
    firstCoordSignOk
      (if canonicalSign u (1e-12) = 1 then u else antipode u) := by
  by_cases hx : |u.x| > 1e-12
  · by_cases hx0 : u.x ≥ 0
    · rw [if_pos (by simp [canonicalSign, hx, hx0])]
      exact ⟨fun _ => hx0,
        fun hle => absurd hx (not_lt.mpr hle),
        fun hle _ => absurd hx (not_lt.mpr hle)⟩
    · rw [if_neg (by simp [canonicalSign, hx, hx0])]
      refine ⟨fun _ => ?_, fun hle => ?_, fun hle _ => ?_⟩
      · simp only [antipode, Vec3.neg]
        linarith [not_le.mp hx0]
      · exact absurd hx (not_lt.mpr (by simpa [antipode, Vec3.neg] using hle))
      · exact absurd hx (not_lt.mpr (by simpa [antipode, Vec3.neg] using hle))
  · by_cases hy : |u.y| > 1e-12
    · by_cases hy0 : u.y ≥ 0
      · rw [if_pos (by simp [canonicalSign, hx, hy, hy0])]
        exact ⟨fun hgt => absurd hgt hx,
          fun _ _ => hy0,
          fun _ hle _ => absurd hy (not_lt.mpr hle)⟩
      · rw [if_neg (by simp [canonicalSign, hx, hy, hy0])]
        refine ⟨fun hgt => ?_, fun _ _ => ?_, fun _ hle _ => ?_⟩
        · exact absurd (by simpa [antipode, Vec3.neg] using hgt) hx
        · simp only [antipode, Vec3.neg]
          linarith [not_le.mp hy0]
        · exact absurd hy (not_lt.mpr (by simpa [antipode, Vec3.neg] using hle))
    · by_cases hz : |u.z| > 1e-12
      · by_cases hz0 : u.z ≥ 0
        · rw [if_pos (by simp [canonicalSign, hx, hy, hz, hz0])]
          exact ⟨fun hgt => absurd hgt hx,
            fun _ hgt => absurd hgt hy,
            fun _ _ _ => hz0⟩
        · rw [if_neg (by simp [canonicalSign, hx, hy, hz, hz0])]
          refine ⟨fun hgt => ?_, fun _ hgt => ?_, fun _ _ _ => ?_⟩
          · exact absurd (by simpa [antipode, Vec3.neg] using hgt) hx
          · exact absurd (by simpa [antipode, Vec3.neg] using hgt) hy
          · simp only [antipode, Vec3.neg]
            linarith [not_le.mp hz0]
      · rw [if_pos (by simp [canonicalSign, hx, hy, hz])]
        exact ⟨fun hgt => absurd hgt hx,
          fun _ hgt => absurd hgt hy,
          fun _ _ hgt => absurd hgt hz⟩

/-- C2.  For every input vector of norm at least `1e-12`, the canonical
representative chosen by `classOf` obeys the lexicographic sign rule: the
first coordinate (in order x, y, z) whose absolute value exceeds `1e-12` is
non-negative. -/
theorem classOf_canonical_first_sign (v : Vec3)
    (_h : (1e-12 : ℝ) ≤ Vec3.norm v) :
    firstCoordSignOk (classOf v).canonical := by
  rw [classOf_canonical]
  exact canonicalRep_firstCoordSignOk (Vec3.normalize v (1e-12))

/-- Witness for C2 at the concrete input `v = (1,0,0)`. -/
theorem classOf_canonical_first_sign_witness :
    (1e-12 : ℝ) ≤ Vec3.norm ⟨1, 0, 0⟩ ∧
      firstCoordSignOk (classOf ⟨1, 0, 0⟩).canonical := by
  have harg : Vec3.norm2 ⟨1, 0, 0⟩ = 1 := by
    norm_num [Vec3.norm2, Vec3.dot]
  have hnorm : Vec3.norm ⟨1, 0, 0⟩ = 1 := by
    rw [Vec3.norm, harg, Real.sqrt_one]
  have hp : (1e-12 : ℝ) ≤ Vec3.norm ⟨1, 0, 0⟩ := by
    rw [hnorm]; norm_num
  exact ⟨hp, classOf_canonical_first_sign _ hp⟩

/-! ### Equivalence of antipodal classes (C3) -/

lemma normalize_neg (v : Vec3) {eps : ℝ}
    (h : ¬ Vec3.norm v < eps) :
    Vec3.normalize (Vec3.neg v) eps = Vec3.neg (Vec3.normalize v eps) := by
  rw [Vec3.normalize, Vec3.normalize, Vec3.norm_neg, if_neg h, if_neg h]
  ext <;> simp [Vec3.scale, Vec3.neg]

lemma classOf_neg_canonical (v : Vec3) :
    (classOf (Vec3.neg v)).canonical = (classOf v).canonical ∨
      (classOf (Vec3.neg v)).canonical = Vec3.neg (classOf v).canonical := by
  rw [classOf_canonical, classOf_canonical]
  by_cases hn : Vec3.norm v < 1e-12
  · left
    have h1 : Vec3.normalize v (1e-12) = ⟨0, 0, 1⟩ := by
      rw [Vec3.normalize, if_pos hn]
    have h2 : Vec3.normalize (Vec3.neg v) (1e-12) = ⟨0, 0, 1⟩ := by
      rw [Vec3.normalize, Vec3.norm_neg, if_pos hn]
    rw [h1, h2]
  · rw [normalize_neg v hn]
    generalize Vec3.normalize v (1e-12) = u
    have negx : (Vec3.neg u).x = -u.x := rfl
    have negy : (Vec3.neg u).y = -u.y := rfl
    have negz : (Vec3.neg u).z = -u.z := rfl
    unfold canonicalSign
    rw [negx, negy, negz, abs_neg, abs_neg, abs_neg]
    by_cases hx : |u.x| > 1e-12
    · rw [if_pos hx, if_pos hx]
      by_cases hx0 : u.x ≥ 0
      · have hxgt : (1e-12 : ℝ) < u.x := by rwa [abs_of_nonneg hx0] at hx
        have hnx0 : ¬ (-u.x ≥ 0) := by push_neg; linarith
        rw [if_pos hx0, if_neg hnx0, if_neg (by decide), if_pos rfl]
        left
        show Vec3.neg (Vec3.neg u) = u
        exact Vec3.neg_neg u
      · have hnx0 : -u.x ≥ 0 := by
          have := not_le.mp hx0
          linarith
        rw [if_neg hx0, if_pos hnx0, if_pos rfl, if_neg (by decide)]
        left
        rfl
    · rw [if_neg hx, if_neg hx]
      by_cases hy : |u.y| > 1e-12
      · rw [if_pos hy, if_pos hy]
        by_cases hy0 : u.y ≥ 0
        · have hygt : (1e-12 : ℝ) < u.y := by rwa [abs_of_nonneg hy0] at hy
          have hny0 : ¬ (-u.y ≥ 0) := by push_neg; linarith
          rw [if_pos hy0, if_neg hny0, if_neg (by decide), if_pos rfl]
          left
          show Vec3.neg (Vec3.neg u) = u
          exact Vec3.neg_neg u
        · have hny0 : -u.y ≥ 0 := by
            have := not_le.mp hy0
            linarith
          rw [if_neg hy0, if_pos hny0, if_pos rfl, if_neg (by decide)]
          left
          rfl
      · rw [if_neg hy, if_neg hy]
        by_cases hz : |u.z| > 1e-12
        · rw [if_pos hz, if_pos hz]
          by_cases hz0 : u.z ≥ 0
          · have hzgt : (1e-12 : ℝ) < u.z := by rwa [abs_of_nonneg hz0] at hz
            have hnz0 : ¬ (-u.z ≥ 0) := by push_neg; linarith
            rw [if_pos hz0, if_neg hnz0, if_neg (by decide), if_pos rfl]
            left
            show Vec3.neg (Vec3.neg u) = u
            exact Vec3.neg_neg u
          · have hnz0 : -u.z ≥ 0 := by
              have := not_le.mp hz0
              linarith
            rw [if_neg hz0, if_pos hnz0, if_pos rfl, if_neg (by decide)]
            left
            rfl
        · rw [if_neg hz, if_neg hz, if_pos rfl, if_pos rfl]
          right
          rfl

/-- C3.  For every non-zero vector `v`, `classEquals(classOf v, classOf (-v))`
returns `true` at the default epsilon `1e-6`: a vector and its negation
produce the same equivalence class. -/
theorem classEquals_classOf_neg (v : Vec3) (_hv : v ≠ ⟨0, 0, 0⟩) :
    classEquals (classOf v) (classOf (Vec3.neg v)) (1e-6) = true := by
  have hr1 : (classOf v).representatives.1 = (classOf v).canonical := rfl
  have hr2 : (classOf (Vec3.neg v)).representatives.1
      = (classOf (Vec3.neg v)).canonical := rfl
  have hr2b : (classOf (Vec3.neg v)).representatives.2
      = Vec3.neg (classOf (Vec3.neg v)).canonical := rfl
  rw [classEquals, hr1, hr2, hr2b]
  rcases classOf_neg_canonical v with h | h
  · rw [h, Vec3.approxEq_self _ (by norm_num), Bool.true_or]
  · rw [h, Vec3.neg_neg, Vec3.approxEq_self _ (by norm_num), Bool.or_true]

/-- Witness for C3 at the concrete input `v = (1,0,0)`. -/
theorem classEquals_classOf_neg_witness :
    ((⟨1, 0, 0⟩ : Vec3) ≠ ⟨0, 0, 0⟩) ∧
      classEquals (classOf ⟨1, 0, 0⟩) (classOf (Vec3.neg ⟨1, 0, 0⟩)) (1e-6)
        = true := by
  have hv : (⟨1, 0, 0⟩ : Vec3) ≠ ⟨0, 0, 0⟩ := by
    intro h
    exact one_ne_zero (congrArg Vec3.x h)
  exact ⟨hv, classEquals_classOf_neg _ hv⟩

/-! ### Cone membership and weight (C4, C10) -/

lemma Vec3.angle_nonneg (a b : Vec3) : 0 ≤ Vec3.angle a b :=
  Real.arccos_nonneg _

lemma angle_self_unit (p : Vec3) (h : Vec3.norm2 p = 1) :
    Vec3.angle p p = 0 := by
  rw [Vec3.angle]
  have hd : Vec3.dot p p = 1 := h
  have hc : Vec3.clamp 1 (-1) 1 = 1 := by
    rw [Vec3.clamp]
    norm_num
  rw [hd, hc, Real.arccos_one]

lemma norm2_classOf_rep1 (v : Vec3) :
    Vec3.norm2 (classOf v).representatives.1 = 1 :=
  norm2_classOf_canonical v

lemma norm2_classOf_rep2 (v : Vec3) :
    Vec3.norm2 (classOf v).representatives.2 = 1 := by
  have h : (classOf v).representatives.2 = Vec3.neg (classOf v).canonical := rfl
  rw [h, Vec3.norm2_neg, norm2_classOf_canonical]

/-- C4.  `quotientConeWeight` follows the exact piecewise-linear falloff law
in the minimum angle `m` to the two representatives: it is `1` when the point
equals either representative, exactly `1/2` at `m = a/2`, `1 - m/a` whenever
`m < a`, and `0` whenever `m ≥ a`. -/
theorem quotientConeWeight_piecewise_linear (v : Vec3) (a : ℝ) (ha : 0 < a)
    (p : Vec3) :
    ((p = (classOf v).representatives.1 ∨ p = (classOf v).representatives.2) →
      quotientConeWeight p (classOf v) a = 1) ∧
    (minAngleTo p (classOf v) = a / 2 →
      quotientConeWeight p (classOf v) a = 1 / 2) ∧
    (minAngleTo p (classOf v) < a →
      quotientConeWeight p (classOf v) a = 1 - minAngleTo p (classOf v) / a) ∧
    (a ≤ minAngleTo p (classOf v) → quotientConeWeight p (classOf v) a = 0) := by
  have hane : a ≠ 0 := ne_of_gt ha
  refine ⟨?_, ?_, ?_, ?_⟩
  · rintro (hp | hp)
    · subst hp
      have h0 : minAngleTo ((classOf v).representatives.1) (classOf v) = 0 := by
        rw [minAngleTo, angle_self_unit _ (norm2_classOf_rep1 v)]
        exact min_eq_left (Vec3.angle_nonneg _ _)
      simp only [quotientConeWeight, h0]
      rw [if_neg (not_le.mpr ha), zero_div, sub_zero]
    · subst hp
      have h0 : minAngleTo ((classOf v).representatives.2) (classOf v) = 0 := by
        rw [minAngleTo, angle_self_unit _ (norm2_classOf_rep2 v)]
        exact min_eq_right (Vec3.angle_nonneg _ _)
      simp only [quotientConeWeight, h0]
      rw [if_neg (not_le.mpr ha), zero_div, sub_zero]
  · intro hm
    have hlt : ¬ (a ≤ a / 2) := not_le.mpr (half_lt_self ha)
    simp only [quotientConeWeight, hm]
    rw [if_neg hlt]
    field_simp
    ring
  · intro hm
    simp only [quotientConeWeight]
    rw [if_neg (not_le.mpr hm)]
  · intro hm
    simp only [quotientConeWeight]
    rw [if_pos hm]

/-! Concrete evaluations used by the witnesses. -/

lemma normalize_e1 : Vec3.normalize ⟨1, 0, 0⟩ (1e-12) = ⟨1, 0, 0⟩ := by
  have harg : Vec3.norm2 ⟨1, 0, 0⟩ = 1 := by
    norm_num [Vec3.norm2, Vec3.dot]
  have hnorm : Vec3.norm ⟨1, 0, 0⟩ = 1 := by
    rw [Vec3.norm, harg, Real.sqrt_one]
  rw [Vec3.normalize, hnorm, if_neg (by norm_num)]
  ext <;> norm_num [Vec3.scale]

lemma canonicalSign_e1 : canonicalSign ⟨1, 0, 0⟩ (1e-12) = 1 := by
  rw [canonicalSign, if_pos (by norm_num), if_pos (by norm_num)]

lemma classOf_e1_canonical : (classOf ⟨1, 0, 0⟩).canonical = ⟨1, 0, 0⟩ := by
  rw [classOf_canonical, normalize_e1, canonicalSign_e1, if_pos rfl]

lemma classOf_e1_rep1 : (classOf ⟨1, 0, 0⟩).representatives.1 = ⟨1, 0, 0⟩ := by
  have h : (classOf ⟨1, 0, 0⟩).representatives.1
      = (classOf ⟨1, 0, 0⟩).canonical := rfl
  rw [h, classOf_e1_canonical]

lemma classOf_e1_rep2 : (classOf ⟨1, 0, 0⟩).representatives.2 = ⟨-1, 0, 0⟩ := by
  have h : (classOf ⟨1, 0, 0⟩).representatives.2
      = Vec3.neg (classOf ⟨1, 0, 0⟩).canonical := rfl
  rw [h, classOf_e1_canonical]
  ext <;> norm_num [Vec3.neg]

lemma angle_e2_e1 : Vec3.angle ⟨0, 1, 0⟩ ⟨1, 0, 0⟩ = Real.pi / 2 := by
  rw [Vec3.angle]
  have hd : Vec3.dot ⟨0, 1, 0⟩ ⟨1, 0, 0⟩ = 0 := by norm_num [Vec3.dot]
  have hc : Vec3.clamp 0 (-1) 1 = 0 := by
    rw [Vec3.clamp]
    norm_num
  rw [hd, hc, Real.arccos_zero]

lemma angle_e2_negE1 : Vec3.angle ⟨0, 1, 0⟩ ⟨-1, 0, 0⟩ = Real.pi / 2 := by
  rw [Vec3.angle]
  have hd : Vec3.dot ⟨0, 1, 0⟩ ⟨-1, 0, 0⟩ = 0 := by norm_num [Vec3.dot]
  have hc : Vec3.clamp 0 (-1) 1 = 0 := by
    rw [Vec3.clamp]
    norm_num
  rw [hd, hc, Real.arccos_zero]

lemma minAngle_e2_classOfE1 :
    minAngleTo ⟨0, 1, 0⟩ (classOf ⟨1, 0, 0⟩) = Real.pi / 2 := by
  rw [minAngleTo, classOf_e1_rep1, classOf_e1_rep2, angle_e2_e1, angle_e2_negE1,
    min_self]

/-- Witness for C4: at aperture `π` and point `(0,1,0)` the minimum angle to
the class of `(1,0,0)` is `π/2 = aperture/2`, and the weight is exactly
`1/2`. -/
theorem quotientConeWeight_piecewise_linear_witness :
    (0 : ℝ) < Real.pi ∧
      quotientConeWeight ⟨0, 1, 0⟩ (classOf ⟨1, 0, 0⟩) Real.pi = 1 / 2 := by
  refine ⟨Real.pi_pos, ?_⟩
  have h := (quotientConeWeight_piecewise_linear ⟨1, 0, 0⟩ Real.pi Real.pi_pos
    ⟨0, 1, 0⟩).2.1
  exact h (by rw [minAngle_e2_classOfE1])

/-- C10.  At the exact cone boundary (minimum angle equal to the aperture)
the two cone primitives disagree: `pointInQuotientCone` returns `true`
(membership uses `≤`) while `quotientConeWeight` returns `0`. -/
theorem cone_boundary_member_zero_weight (p v : Vec3) (a : ℝ)
    (_hp : Vec3.norm2 p = 1) (_ha : 0 < a)
    (hm : minAngleTo p (classOf v) = a) :
    pointInQuotientCone p (classOf v) a = true ∧
      quotientConeWeight p (classOf v) a = 0 := by
  constructor
  · simp only [pointInQuotientCone, hm, decide_eq_true_eq]
    exact le_rfl
  · simp only [quotientConeWeight, hm]
    rw [if_pos le_rfl]

/-- Witness for C10: the unit point `(0,1,0)` sits exactly on the boundary of
the aperture-`π/2` cone around the class of `(1,0,0)`; it is a member with
weight `0`. -/
theorem cone_boundary_member_zero_weight_witness :
    Vec3.norm2 ⟨0, 1, 0⟩ = 1 ∧ (0 : ℝ) < Real.pi / 2 ∧
      minAngleTo ⟨0, 1, 0⟩ (classOf ⟨1, 0, 0⟩) = Real.pi / 2 ∧
      (pointInQuotientCone ⟨0, 1, 0⟩ (classOf ⟨1, 0, 0⟩) (Real.pi / 2) = true ∧
        quotientConeWeight ⟨0, 1, 0⟩ (classOf ⟨1, 0, 0⟩) (Real.pi / 2) = 0) := by
  have h1 : Vec3.norm2 (⟨0, 1, 0⟩ : Vec3) = 1 := by
    norm_num [Vec3.norm2, Vec3.dot]
  have h2 : (0 : ℝ) < Real.pi / 2 := half_pos Real.pi_pos
  exact ⟨h1, h2, minAngle_e2_classOfE1,
    cone_boundary_member_zero_weight _ _ _ h1 h2 minAngle_e2_classOfE1⟩

/-! ### Pullback symmetry (C5) -/

/-- The hypotheses of the pullback-symmetry claim: the `class` field of the
action was built by `classOf`, and a `Trace` action has a non-empty path. -/
def wellFormedAction : QuotientAction → Prop
  | .Select cls _ => ∃ v, cls = classOf v
  | .Paint cls _ _ => ∃ v, cls = classOf v
  | .Stamp cls _ => ∃ v, cls = classOf v
  | .Trace path => path ≠ []
  | .Unknown _ => False

lemma validateSymmetry_of_eq (r : PullbackResult)
    (ht : r.effectOnU.type = r.effectOnNegU.type)
    (hp : r.effectOnNegU.position = Vec3.neg r.effectOnU.position) :
    validateSymmetry r = true := by
  rw [validateSymmetry, if_neg (by simp [ht]), if_neg ?_]
  rw [hp, Vec3.approxEq_self _ (by norm_num)]
  simp

/-- C5.  For every well-formed `QuotientAction`, the `PullbackResult`
produced by `pullbackAction` has matching effect types and exactly antipodal
positions, so `validateSymmetry` returns `true` on it. -/
theorem pullbackAction_validateSymmetry (action : QuotientAction)
    (hw : wellFormedAction action) (result : PullbackResult)
    (hr : pullbackAction action = Except.ok result) :
    result.effectOnU.type = result.effectOnNegU.type ∧
      result.effectOnNegU.position = Vec3.neg result.effectOnU.position ∧
      validateSymmetry result = true := by
  cases action with
  | Select cls aperture =>
      obtain ⟨v, rfl⟩ := hw
      simp only [pullbackAction] at hr
      injection hr with h
      subst h
      exact ⟨rfl, rfl, validateSymmetry_of_eq _ rfl rfl⟩
  | Paint cls radius color =>
      obtain ⟨v, rfl⟩ := hw
      simp only [pullbackAction] at hr
      injection hr with h
      subst h
      exact ⟨rfl, rfl, validateSymmetry_of_eq _ rfl rfl⟩
  | Stamp cls pattern =>
      obtain ⟨v, rfl⟩ := hw
      simp only [pullbackAction] at hr
      injection hr with h
      subst h
      exact ⟨rfl, rfl, validateSymmetry_of_eq _ rfl rfl⟩
  | Trace path =>
      simp only [pullbackAction] at hr
      injection hr with h
      subst h
      cases path with
      | nil => exact absurd rfl hw
      | cons q qs => exact ⟨rfl, rfl, validateSymmetry_of_eq _ rfl rfl⟩
  | Unknown tag => exact False.elim hw

/-- Witness for C5 at the concrete action `Select(classOf (1,0,0), 0.4)`. -/
theorem pullbackAction_validateSymmetry_witness :
    wellFormedAction (QuotientAction.Select (classOf ⟨1, 0, 0⟩) 0.4) ∧
      validateSymmetry (pullbackSelect (classOf ⟨1, 0, 0⟩) 0.4) = true := by
  have hw : wellFormedAction (QuotientAction.Select (classOf ⟨1, 0, 0⟩) 0.4) :=
    show ∃ v, classOf ⟨1, 0, 0⟩ = classOf v from ⟨⟨1, 0, 0⟩, rfl⟩
  exact ⟨hw, (pullbackAction_validateSymmetry _ hw _ rfl).2.2⟩

/-! ### Render directives (C6) -/

/-- C6.  For every state, `generateRenderDirectives` returns exactly 2
spotlights — whose directions are the two representatives of the selected
class, in order `[u, -u]` — and exactly 1 quotient marker; in particular,
applying `ClickQuotient (1,0,0)` to the default state yields spotlight
directions `[(1,0,0), (-1,0,0)]` and one marker. -/
theorem generateRenderDirectives_two_spotlights_one_marker :
    (∀ s : SelectionState,
      (generateRenderDirectives s).spotlights.length = 2 ∧
      (generateRenderDirectives s).spotlights.map Spotlight.direction =
        [s.selectedClass.representatives.1, s.selectedClass.representatives.2] ∧
      (generateRenderDirectives s).quotientMarkers.length = 1) ∧
    ((generateRenderDirectives (processIntent createDefaultSelection
          (SelectionIntent.ClickQuotient ⟨1, 0, 0⟩))).spotlights.map
        Spotlight.direction = [⟨1, 0, 0⟩, ⟨-1, 0, 0⟩] ∧
      (generateRenderDirectives (processIntent createDefaultSelection
          (SelectionIntent.ClickQuotient ⟨1, 0, 0⟩))).quotientMarkers.length
        = 1) := by
  constructor
  · intro s
    exact ⟨rfl, rfl, rfl⟩
  · constructor
    · set s1 := processIntent createDefaultSelection
        (SelectionIntent.ClickQuotient ⟨1, 0, 0⟩) with hs1
      have hsel : s1.selectedClass = classOf ⟨1, 0, 0⟩ := rfl
      have hmap : (generateRenderDirectives s1).spotlights.map
          Spotlight.direction =
          [s1.selectedClass.representatives.1,
            s1.selectedClass.representatives.2] := rfl
      rw [hmap, hsel, classOf_e1_rep1, classOf_e1_rep2]
    · rfl

/-! ### Unknown-tag dispatch asymmetry (C7) -/

/-- C7.  The two dispatch sites treat an unrecognized `type` tag
asymmetrically: `processIntent` returns its input state unchanged (it is a
total function and never throws), while `pullbackAction` fails with the
error `Unknown action type: ...`. -/
theorem unknown_tag_dispatch_asymmetry :
    (∀ (s : SelectionState) (tag : String),
      processIntent s (SelectionIntent.Unknown tag) = s) ∧
    (∀ tag : String,
      pullbackAction (QuotientAction.Unknown tag)
        = Except.error ("Unknown action type: " ++ tag)) :=
  ⟨fun _ _ => rfl, fun _ => rfl⟩

/-! ### Quaternion/matrix agreement (C9) -/

/-- C9.  For every axis and angle, the quaternion path
`quaternionToMatrix ∘ quaternionFromAxisAngle` and the Rodrigues path
`rotationAxisAngle` produce the same rotation matrix, component-wise, in
exact real arithmetic. -/
theorem quaternion_matrix_agreement (axis : Vec3) (θ : ℝ) :
    quaternionToMatrix (quaternionFromAxisAngle axis θ) =
      rotationAxisAngle axis θ := by
  have hu2 := Vec3.norm2_normalize axis (show (0:ℝ) < 1e-12 by norm_num)
  have hs : Real.sin (θ / 2) ^ 2 + Real.cos (θ / 2) ^ 2 = 1 :=
    Real.sin_sq_add_cos_sq _
  have hc : Real.cos θ = 2 * Real.cos (θ / 2) ^ 2 - 1 := by
    have h := Real.cos_two_mul (θ / 2)
    have h2 : 2 * (θ / 2) = θ := by ring
    rw [h2] at h
    exact h
  have hsin : Real.sin θ = 2 * Real.sin (θ / 2) * Real.cos (θ / 2) := by
    have h := Real.sin_two_mul (θ / 2)
    have h2 : 2 * (θ / 2) = θ := by ring
    rw [h2] at h
    exact h
  simp only [quaternionToMatrix, quaternionFromAxisAngle, rotationAxisAngle]
  rw [hc, hsin]
  set u := Vec3.normalize axis (1e-12) with hudef
  have hu : u.x ^ 2 + u.y ^ 2 + u.z ^ 2 = 1 := by
    simp only [Vec3.norm2, Vec3.dot] at hu2
    linear_combination hu2
  simp only [Mat3.mk.injEq]
  refine ⟨?_, ?_, ?_, ?_, ?_, ?_, ?_, ?_, ?_⟩
  · linear_combination (-2 * Real.sin (θ / 2) ^ 2) * hu +
      (2 * u.x ^ 2 - 2) * hs
  · linear_combination (2 * u.x * u.y) * hs
  · linear_combination (2 * u.x * u.z) * hs
  · linear_combination (2 * u.x * u.y) * hs
  · linear_combination (-2 * Real.sin (θ / 2) ^ 2) * hu +
      (2 * u.y ^ 2 - 2) * hs
  · linear_combination (2 * u.y * u.z) * hs
  · linear_combination (2 * u.x * u.z) * hs
  · linear_combination (2 * u.y * u.z) * hs
  · linear_combination (-2 * Real.sin (θ / 2) ^ 2) * hu +
      (2 * u.z ^ 2 - 2) * hs

/-! ### Ray–sphere intersection (C8) -/

lemma sphereQuadA_pos (ray : Ray) (hd : ray.direction ≠ ⟨0, 0, 0⟩) :
    0 < sphereQuadA ray := by
  have hnn : 0 ≤ sphereQuadA ray := by
    have hx := mul_self_nonneg ray.direction.x
    have hy := mul_self_nonneg ray.direction.y
    have hz := mul_self_nonneg ray.direction.z
    rw [sphereQuadA, Vec3.dot]
    linarith
  rcases hnn.lt_or_eq with h | h
  · exact h
  · exfalso
    apply hd
    have h0 : sphereQuadA ray = 0 := h.symm
    rw [sphereQuadA, Vec3.dot] at h0
    have hx : ray.direction.x * ray.direction.x = 0 :=
      le_antisymm
        (by nlinarith [mul_self_nonneg ray.direction.y,
          mul_self_nonneg ray.direction.z])
        (mul_self_nonneg _)
    have hy : ray.direction.y * ray.direction.y = 0 :=
      le_antisymm
        (by nlinarith [mul_self_nonneg ray.direction.x,
          mul_self_nonneg ray.direction.z])
        (mul_self_nonneg _)
    have hz : ray.direction.z * ray.direction.z = 0 :=
      le_antisymm
        (by nlinarith [mul_self_nonneg ray.direction.x,
          mul_self_nonneg ray.direction.y])
        (mul_self_nonneg _)
    ext
    · exact mul_self_eq_zero.mp hx
    · exact mul_self_eq_zero.mp hy
    · exact mul_self_eq_zero.mp hz

lemma sphereQuad_closed_form (ray : Ray) (ha : sphereQuadA ray ≠ 0)
    (t : ℝ) :
    sphereQuad ray t =
      ((2 * sphereQuadA ray * t + sphereQuadB ray) ^ 2 - sphereDisc ray) /
        (4 * sphereQuadA ray) := by
  rw [sphereQuad, sphereDisc]
  field_simp
  ring

lemma sphereT1_key (ray : Ray) (ha : sphereQuadA ray ≠ 0) :
    2 * sphereQuadA ray * sphereT1 ray + sphereQuadB ray
      = -Real.sqrt (sphereDisc ray) := by
  rw [sphereT1]
  field_simp
  ring

lemma sphereT2_key (ray : Ray) (ha : sphereQuadA ray ≠ 0) :
    2 * sphereQuadA ray * sphereT2 ray + sphereQuadB ray
      = Real.sqrt (sphereDisc ray) := by
  rw [sphereT2]
  field_simp

lemma sphereQuad_root_t1 (ray : Ray) (ha : sphereQuadA ray ≠ 0)
    (hdisc : 0 ≤ sphereDisc ray) : sphereQuad ray (sphereT1 ray) = 0 := by
  rw [sphereQuad_closed_form ray ha, sphereT1_key ray ha, neg_sq,
    Real.sq_sqrt hdisc, sub_self, zero_div]

lemma sphereQuad_root_t2 (ray : Ray) (ha : sphereQuadA ray ≠ 0)
    (hdisc : 0 ≤ sphereDisc ray) : sphereQuad ray (sphereT2 ray) = 0 := by
  rw [sphereQuad_closed_form ray ha, sphereT2_key ray ha,
    Real.sq_sqrt hdisc, sub_self, zero_div]

lemma sphereT1_le_sphereT2 (ray : Ray) (ha : 0 < sphereQuadA ray) :
    sphereT1 ray ≤ sphereT2 ray := by
  have h2a : 0 < 2 * sphereQuadA ray := by linarith
  have hnum : -sphereQuadB ray - Real.sqrt (sphereDisc ray)
      ≤ -sphereQuadB ray + Real.sqrt (sphereDisc ray) := by
    linarith [Real.sqrt_nonneg (sphereDisc ray)]
  rw [sphereT1, sphereT2]
  exact (div_le_div_iff_of_pos_right h2a).mpr hnum

lemma sphereQuad_eq_zero_iff (ray : Ray) (ha : sphereQuadA ray ≠ 0)
    (hdisc : 0 ≤ sphereDisc ray) (t : ℝ) :
    sphereQuad ray t = 0 ↔ t = sphereT1 ray ∨ t = sphereT2 ray := by
  constructor
  · intro ht
    have hs : Real.sqrt (sphereDisc ray) ^ 2 = sphereDisc ray :=
      Real.sq_sqrt hdisc
    have key : (2 * sphereQuadA ray * t + sphereQuadB ray) ^ 2
        = Real.sqrt (sphereDisc ray) ^ 2 := by
      rw [hs, sphereDisc]
      rw [sphereQuad] at ht
      linear_combination (4 * sphereQuadA ray) * ht
    have hfac : (2 * sphereQuadA ray * t + sphereQuadB ray
          - Real.sqrt (sphereDisc ray)) *
        (2 * sphereQuadA ray * t + sphereQuadB ray
          + Real.sqrt (sphereDisc ray)) = 0 := by
      linear_combination key
    rcases mul_eq_zero.mp hfac with h | h
    · right
      rw [sphereT2]
      field_simp
      linear_combination h
    · left
      rw [sphereT1]
      field_simp
      linear_combination h
  · rintro (rfl | rfl)
    · exact sphereQuad_root_t1 ray ha hdisc
    · exact sphereQuad_root_t2 ray ha hdisc

/-- C8 (amended).  For every ray with non-zero direction,
`raySphereIntersection` returns `null` exactly when the discriminant is
negative or the quadratic has no *non-negative* root; otherwise it returns
the point at parameter `t1` when `t1 > 0` (the nearer positive root), and at
`t2` (the larger root, possibly `0`) when `t1 ≤ 0`, normalized. -/
theorem raySphereIntersection_characterization (ray : Ray)
    (hd : ray.direction ≠ ⟨0, 0, 0⟩) :
    (raySphereIntersection ray = none ↔
      sphereDisc ray < 0 ∨ ∀ t : ℝ, 0 ≤ t → sphereQuad ray t ≠ 0) ∧
    (∀ p : Vec3, raySphereIntersection ray = some p →
      ∃ t : ℝ, 0 ≤ t ∧ sphereQuad ray t = 0 ∧
        p = Vec3.normalize (Vec3.add ray.origin (Vec3.scale ray.direction t))
          (1e-12) ∧
        (0 < sphereT1 ray → t = sphereT1 ray) ∧
        (sphereT1 ray ≤ 0 → t = sphereT2 ray)) := by
  have ha := sphereQuadA_pos ray hd
  have hane := ne_of_gt ha
  by_cases hdisc : sphereDisc ray < 0
  · constructor
    · constructor
      · intro _
        exact Or.inl hdisc
      · intro _
        simp only [raySphereIntersection]
        rw [if_pos hdisc]
    · intro p hp
      simp only [raySphereIntersection] at hp
      rw [if_pos hdisc] at hp
      exact absurd hp (by simp)
  · have hdisc' : 0 ≤ sphereDisc ray := not_lt.mp hdisc
    have hroots := sphereQuad_eq_zero_iff ray hane hdisc'
    have ht1 := sphereQuad_root_t1 ray hane hdisc'
    have ht2 := sphereQuad_root_t2 ray hane hdisc'
    have hle := sphereT1_le_sphereT2 ray ha
    simp only [raySphereIntersection]
    rw [if_neg hdisc]
    set tc := if sphereT1 ray > 0 then sphereT1 ray else sphereT2 ray with htc
    have htcr : sphereQuad ray tc = 0 := by
      by_cases h : sphereT1 ray > 0
      · rw [htc, if_pos h]
        exact ht1
      · rw [htc, if_neg h]
        exact ht2
    constructor
    · constructor
      · intro hnone
        by_cases h0 : tc < 0
        · right
          intro t htn htq
          rcases (hroots t).mp htq with rfl | rfl
          · by_cases hgt : sphereT1 ray > 0
            · rw [htc, if_pos hgt] at h0
              linarith
            · rw [htc, if_neg hgt] at h0
              linarith
          · by_cases hgt : sphereT1 ray > 0
            · rw [htc, if_pos hgt] at h0
              linarith
            · rw [htc, if_neg hgt] at h0
              linarith
        · rw [if_neg h0] at hnone
          exact absurd hnone (by simp)
      · intro hR
        rcases hR with h | hnoroot
        · exact absurd h hdisc
        · have h1 : ¬ sphereT1 ray > 0 := by
            intro hgt
            exact hnoroot (sphereT1 ray) (le_of_lt hgt) ht1
          have h2 : sphereT2 ray < 0 := by
            by_contra h2
            exact hnoroot (sphereT2 ray) (not_lt.mp h2) ht2
          have h0 : tc < 0 := by
            rw [htc, if_neg h1]
            exact h2
          rw [if_pos h0]
    · intro p hp
      by_cases h0 : tc < 0
      · rw [if_pos h0] at hp
        exact absurd hp (by simp)
      · rw [if_neg h0] at hp
        injection hp with hpe
        refine ⟨tc, not_lt.mp h0, htcr, hpe.symm, ?_, ?_⟩
        · intro hgt
          rw [htc, if_pos hgt]
        · intro hle1
          rw [htc, if_neg (not_lt.mpr hle1)]

/-- Counterexample for C8 as stated: for the ray with origin `(1,0,0)` on
the sphere and tangent direction `(0,1,0)`, the quadratic has no positive
root (its only root is `t = 0`), yet the function does not return `null` —
it returns the origin itself. -/
theorem raySphere_boundary_counterexample :
    (¬ ∃ t : ℝ, 0 < t ∧ sphereQuad ⟨⟨1, 0, 0⟩, ⟨0, 1, 0⟩⟩ t = 0) ∧
      raySphereIntersection ⟨⟨1, 0, 0⟩, ⟨0, 1, 0⟩⟩ = some ⟨1, 0, 0⟩ := by
  have hA : sphereQuadA ⟨⟨1, 0, 0⟩, ⟨0, 1, 0⟩⟩ = 1 := by
    norm_num [sphereQuadA, Vec3.dot]
  have hB : sphereQuadB ⟨⟨1, 0, 0⟩, ⟨0, 1, 0⟩⟩ = 0 := by
    norm_num [sphereQuadB, Vec3.dot]
  have hC : sphereQuadC ⟨⟨1, 0, 0⟩, ⟨0, 1, 0⟩⟩ = 0 := by
    norm_num [sphereQuadC, Vec3.dot]
  constructor
  · rintro ⟨t, ht, hq⟩
    rw [sphereQuad, hA, hB, hC] at hq
    have ht2 : t ^ 2 = 0 := by linarith
    have ht0 : t = 0 := (pow_eq_zero_iff two_ne_zero).mp ht2
    linarith
  · have hdisc : sphereDisc ⟨⟨1, 0, 0⟩, ⟨0, 1, 0⟩⟩ = 0 := by
      rw [sphereDisc, hA, hB, hC]
      norm_num
    have ht1 : sphereT1 ⟨⟨1, 0, 0⟩, ⟨0, 1, 0⟩⟩ = 0 := by
      rw [sphereT1, hdisc, hA, hB, Real.sqrt_zero]
      norm_num
    have ht2 : sphereT2 ⟨⟨1, 0, 0⟩, ⟨0, 1, 0⟩⟩ = 0 := by
      rw [sphereT2, hdisc, hA, hB, Real.sqrt_zero]
      norm_num
    have htc : (if sphereT1 ⟨⟨1, 0, 0⟩, ⟨0, 1, 0⟩⟩ > 0
        then sphereT1 ⟨⟨1, 0, 0⟩, ⟨0, 1, 0⟩⟩
        else sphereT2 ⟨⟨1, 0, 0⟩, ⟨0, 1, 0⟩⟩) = 0 := by
      rw [ht1, ht2, if_neg (by norm_num)]
    simp only [raySphereIntersection]
    rw [if_neg (by rw [hdisc]; norm_num), htc, if_neg (by norm_num)]
    have hpt : Vec3.add ⟨1, 0, 0⟩ (Vec3.scale ⟨0, 1, 0⟩ 0) = ⟨1, 0, 0⟩ := by
      ext <;> norm_num [Vec3.add, Vec3.scale]
    rw [hpt, normalize_e1]

/-- Witness for the amended C8 at a ray that does hit the sphere. -/
theorem raySphereIntersection_characterization_witness :
    raySphereIntersection ⟨⟨0, 0, 3⟩, ⟨0, 0, -1⟩⟩ ≠ none := by
  have hd : (⟨0, 0, -1⟩ : Vec3) ≠ (⟨0, 0, 0⟩ : Vec3) := by
    intro h
    have hz := congrArg Vec3.z h
    norm_num at hz
  have h := (raySphereIntersection_characterization ⟨⟨0, 0, 3⟩, ⟨0, 0, -1⟩⟩
    hd).1
  intro hnone
  rcases h.mp hnone with hneg | hroot
  · norm_num [sphereDisc, sphereQuadA, sphereQuadB, sphereQuadC,
      Vec3.dot] at hneg
  · exact hroot 2 (by norm_num)
      (by norm_num [sphereQuad, sphereQuadA, sphereQuadB, sphereQuadC,
        Vec3.dot])

end SeamViz
